import Mathlib

/-!
Verification development for the x402 payment-gating examples repository.

The definitions below are a shallow embedding of the TypeScript sources:

* `validatePayment`, `validatePaymentFallback`, `validatePaymentOnChain`
  embed `x402-api/src/payment-validator.ts`;
* `gateStep` (with its staged helpers `gateParsed`, `gateReplay`, `gateFac`,
  `gatePaid`) embeds the `app.post` handler of
  `langgraph-x402-agent/x402-api/src/index.ts`;
* `clientCreateSignedAuthorization` embeds `X402Client.createSignedAuthorization`
  and `serverCreatePaymentAuthorization` embeds
  `X402ServerClient.createPaymentAuthorization`;
* `clientPaymentHeaderValue` / `serverPaymentHeaderValue` embed the X-PAYMENT
  header attachment of `X402Client.fetch` and `X402ServerClient.fetch`.

JavaScript JSON values are modelled by the inductive `Json`; `JSON.parse` is
modelled by the executable recursive-descent `jsonParse`, `JSON.stringify` by
`serJson`, and `Buffer.from(s).toString('base64')` by `base64encStr`.
Numbers are modelled as exact rationals.
-/

/-- Model of a JavaScript JSON value (`JSON.parse` result). Numbers are kept
as exact rationals. -/
inductive Json : Type where
  | null : Json
  | bool (b : Bool) : Json
  | num (q : ℚ) : Json
  | str (s : String) : Json
  | arr (xs : List Json) : Json
  | obj (fields : List (String × Json)) : Json
deriving Repr

/-- JavaScript `SameValueZero` equality, as used by `Set.prototype.has`:
primitive values (the nonce strings of this protocol, numbers, booleans,
`null`) compare by value; objects and arrays compare by reference, and since
every request re-parses its X-PAYMENT header into a fresh object, an object
or array stored by one request is never reference-equal to any later
request's value — modelled as never equal. -/
def sameValueZero : Json → Json → Bool
  | .null, .null => true
  | .bool a, .bool b => a == b
  | .num a, .num b => a == b
  | .str a, .str b => a == b
  | _, _ => false

/-- Equality on possibly-undefined JSON values (`undefined` is `none`). -/
def opEq (a b : Option Json) : Bool :=
  match a, b with
  | none, none => true
  | some x, some y => sameValueZero x y
  | _, _ => false

/-- Property access `o[k]` on a JSON object: later duplicate keys shadow
earlier ones, exactly as in a parsed JavaScript object; access on a non-object
value or on `undefined` yields `undefined` (`none`). -/
def jget (o : Option Json) (k : String) : Option Json :=
  match o with
  | some (.obj fs) => fs.foldl (fun acc p => if p.1 == k then some p.2 else acc) none
  | _ => none

/-- JavaScript truthiness of a possibly-undefined JSON value. -/
def jsTruthy : Option Json → Bool
  | none => false
  | some .null => false
  | some (.bool b) => b
  | some (.num q) => !(q == 0)
  | some (.str s) => !(s == "")
  | some (.arr _) => true
  | some (.obj _) => true

/-- JavaScript `x || dflt` on an optional environment-variable string
(an unset variable and the empty string are both falsy). -/
def jsOr (o : Option String) (dflt : String) : String :=
  match o with
  | none => dflt
  | some s => if s == "" then dflt else s

/-! ### A model of `JSON.parse`

Fuel-indexed recursive-descent parser for the JSON grammar: `null`, booleans,
numbers (optional minus, no leading zeros, optional fraction and exponent),
strings with escape sequences, arrays and objects, with JSON whitespace. -/

def isJsonWs (c : Char) : Bool :=
  c == ' ' || c == '\t' || c == '\n' || c == '\r'

def skipWs (cs : List Char) : List Char :=
  cs.dropWhile isJsonWs

def isDigitChar (c : Char) : Bool :=
  '0' ≤ c && c ≤ '9'

def isHexDigitChar (c : Char) : Bool :=
  isDigitChar c || ('a' ≤ c && c ≤ 'f') || ('A' ≤ c && c ≤ 'F')

def digitVal (c : Char) : ℕ := c.toNat - '0'.toNat

def hexDigitVal (c : Char) : ℕ :=
  if isDigitChar c then c.toNat - '0'.toNat
  else if 'a' ≤ c && c ≤ 'f' then c.toNat - 'a'.toNat + 10
  else c.toNat - 'A'.toNat + 10

def digitsToNat (ds : List Char) : ℕ :=
  ds.foldl (fun acc c => 10 * acc + digitVal c) 0

def hexDigitsToNat (ds : List Char) : ℕ :=
  ds.foldl (fun acc c => 16 * acc + hexDigitVal c) 0

/-- Parse the characters of a JSON string literal after the opening quote,
returning the decoded characters and the input after the closing quote. -/
def parseStrChars : List Char → Option (List Char × List Char)
  | [] => none
  | '"' :: rest => some ([], rest)
  | '\\' :: e :: rest =>
    match e with
    | '"' => (parseStrChars rest).map (fun p => ('"' :: p.1, p.2))
    | '\\' => (parseStrChars rest).map (fun p => ('\\' :: p.1, p.2))
    | '/' => (parseStrChars rest).map (fun p => ('/' :: p.1, p.2))
    | 'b' => (parseStrChars rest).map (fun p => (Char.ofNat 8 :: p.1, p.2))
    | 'f' => (parseStrChars rest).map (fun p => (Char.ofNat 12 :: p.1, p.2))
    | 'n' => (parseStrChars rest).map (fun p => ('\n' :: p.1, p.2))
    | 'r' => (parseStrChars rest).map (fun p => ('\r' :: p.1, p.2))
    | 't' => (parseStrChars rest).map (fun p => ('\t' :: p.1, p.2))
    | 'u' =>
      match rest with
      | h1 :: h2 :: h3 :: h4 :: rest2 =>
        if isHexDigitChar h1 && isHexDigitChar h2 && isHexDigitChar h3 && isHexDigitChar h4 then
          (parseStrChars rest2).map
            (fun p => (Char.ofNat (hexDigitsToNat [h1, h2, h3, h4]) :: p.1, p.2))
        else none
      | _ => none
    | _ => none
  | c :: rest =>
    if c.toNat < 32 then none
    else (parseStrChars rest).map (fun p => (c :: p.1, p.2))

/-- Parse the integer-part digits of a JSON number (no leading zero except a
lone `0`), returning the digits and the remaining input. -/
def parseIntDigits : List Char → Option (List Char × List Char)
  | '0' :: rest => some (['0'], rest)
  | c :: rest =>
    if isDigitChar c then
      some (c :: rest.takeWhile isDigitChar, rest.dropWhile isDigitChar)
    else none
  | [] => none

/-- Parse the optional fraction part `.digits`. -/
def parseFracPart (cs : List Char) : (List Char × List Char) :=
  match cs with
  | '.' :: rest =>
    if (rest.takeWhile isDigitChar).isEmpty then ([], cs)
    else (rest.takeWhile isDigitChar, rest.dropWhile isDigitChar)
  | _ => ([], cs)

/-- Parse the optional exponent part `(e|E)(+|-)?digits`, returning its signed
value. -/
def parseExpPart (cs : List Char) : Option (Option ℤ × List Char) :=
  match cs with
  | 'e' :: rest => parseExpTail rest
  | 'E' :: rest => parseExpTail rest
  | _ => some (none, cs)
where
  parseExpTail (rest : List Char) : Option (Option ℤ × List Char) :=
    match rest with
    | '+' :: rest2 =>
      if (rest2.takeWhile isDigitChar).isEmpty then none
      else some (some (digitsToNat (rest2.takeWhile isDigitChar) : ℤ),
                 rest2.dropWhile isDigitChar)
    | '-' :: rest2 =>
      if (rest2.takeWhile isDigitChar).isEmpty then none
      else some (some (-(digitsToNat (rest2.takeWhile isDigitChar) : ℤ)),
                 rest2.dropWhile isDigitChar)
    | _ =>
      if (rest.takeWhile isDigitChar).isEmpty then none
      else some (some (digitsToNat (rest.takeWhile isDigitChar) : ℤ),
                 rest.dropWhile isDigitChar)

/-- Exact rational value of a decomposed JSON number
`(-1)^neg * intDs.fracDs * 10^e`, assembled with one `mkRat`. -/
def numValue (neg : Bool) (intDs fracDs : List Char) (e : Option ℤ) : ℚ :=
  let mAbs : ℕ := digitsToNat intDs * 10 ^ fracDs.length + digitsToNat fracDs
  let m : ℤ := if neg then -(mAbs : ℤ) else (mAbs : ℤ)
  match e with
  | none => mkRat m (10 ^ fracDs.length)
  | some k =>
    if 0 ≤ k then mkRat (m * ((10 ^ k.toNat : ℕ) : ℤ)) (10 ^ fracDs.length)
    else mkRat m (10 ^ fracDs.length * 10 ^ (-k).toNat)

/-- Parse a JSON number at the head of the input. -/
def parseNumber (cs : List Char) : Option (Json × List Char) :=
  let (neg, cs1) : Bool × List Char :=
    match cs with
    | '-' :: rest => (true, rest)
    | _ => (false, cs)
  match parseIntDigits cs1 with
  | none => none
  | some (intDs, cs2) =>
    let (fracDs, cs3) := parseFracPart cs2
    match parseExpPart cs3 with
    | none => none
    | some (e, cs4) => some (.num (numValue neg intDs fracDs e), cs4)

mutual

/-- Parse a JSON value at the head of the input (leading whitespace allowed). -/
def parseVal : ℕ → List Char → Option (Json × List Char)
  | 0, _ => none
  | fuel + 1, cs =>
    match skipWs cs with
    | 'n' :: 'u' :: 'l' :: 'l' :: rest => some (.null, rest)
    | 't' :: 'r' :: 'u' :: 'e' :: rest => some (.bool true, rest)
    | 'f' :: 'a' :: 'l' :: 's' :: 'e' :: rest => some (.bool false, rest)
    | '"' :: rest => (parseStrChars rest).map (fun p => (.str (String.mk p.1), p.2))
    | '[' :: rest => parseArrBody fuel (skipWs rest)
    | '\x7b' :: rest => parseObjBody fuel (skipWs rest)
    | cs2 => parseNumber cs2

/-- Parse an array body after `[` and whitespace. -/
def parseArrBody : ℕ → List Char → Option (Json × List Char)
  | 0, _ => none
  | fuel + 1, cs =>
    match cs with
    | ']' :: rest => some (.arr [], rest)
    | _ =>
      match parseVal fuel cs with
      | none => none
      | some (v, rest) => parseArrTail fuel [v] (skipWs rest)

/-- Parse `, value ... ]` continuations of an array. -/
def parseArrTail : ℕ → List Json → List Char → Option (Json × List Char)
  | 0, _, _ => none
  | fuel + 1, acc, cs =>
    match cs with
    | ']' :: rest => some (.arr acc.reverse, rest)
    | ',' :: rest =>
      match parseVal fuel rest with
      | none => none
      | some (v, rest2) => parseArrTail fuel (v :: acc) (skipWs rest2)
    | _ => none

/-- Parse an object body after the opening brace and whitespace. -/
def parseObjBody : ℕ → List Char → Option (Json × List Char)
  | 0, _ => none
  | fuel + 1, cs =>
    match cs with
    | '\x7d' :: rest => some (.obj [], rest)
    | _ => parseObjMember fuel [] cs

/-- Parse one `"key": value` member and its continuation. -/
def parseObjMember : ℕ → List (String × Json) → List Char → Option (Json × List Char)
  | 0, _, _ => none
  | fuel + 1, acc, cs =>
    match cs with
    | '"' :: rest =>
      match parseStrChars rest with
      | none => none
      | some (kcs, rest2) =>
        match skipWs rest2 with
        | ':' :: rest3 =>
          match parseVal fuel rest3 with
          | none => none
          | some (v, rest4) =>
            match skipWs rest4 with
            | ',' :: rest5 => parseObjMember fuel ((String.mk kcs, v) :: acc) (skipWs rest5)
            | '\x7d' :: rest5 => some (.obj ((String.mk kcs, v) :: acc).reverse, rest5)
            | _ => none
        | _ => none
    | _ => none

end

/-- Model of JavaScript `JSON.parse`: `none` models a thrown `SyntaxError`. -/
def jsonParse (s : String) : Option Json :=
  match parseVal (s.length + 1) s.data with
  | none => none
  | some (j, rest) => if (skipWs rest).isEmpty then some j else none

/-! ### A model of `JSON.stringify` and of base64 encoding -/

/-- `JSON.stringify` escaping of one string character (the strings of this
protocol contain no control or quote characters, but the escapes are modelled
for faithfulness). -/
def escChar (c : Char) : List Char :=
  if c == '"' then ['\\', '"']
  else if c == '\\' then ['\\', '\\']
  else if c.toNat < 32 then
    match c with
    | '\n' => ['\\', 'n']
    | '\r' => ['\\', 'r']
    | '\t' => ['\\', 't']
    | _ => ['\\', 'u', '0', '0',
            (if c.toNat / 16 < 10 then Char.ofNat ('0'.toNat + c.toNat / 16)
             else Char.ofNat ('a'.toNat + c.toNat / 16 - 10)),
            (if c.toNat % 16 < 10 then Char.ofNat ('0'.toNat + c.toNat % 16)
             else Char.ofNat ('a'.toNat + c.toNat % 16 - 10))]
  else [c]

/-- `JSON.stringify` rendering of a string literal. -/
def serStr (s : String) : String :=
  "\"" ++ String.mk (s.data.flatMap escChar) ++ "\""

/-- Decimal rendering of a rational that is an integer (every number the
embedded code stringifies is an integer). -/
def serNum (q : ℚ) : String :=
  if q.den == 1 then toString q.num else toString q.num ++ "/" ++ toString q.den

mutual

/-- Model of `JSON.stringify` (no indentation, insertion order preserved). -/
def serJson : Json → String
  | .null => "null"
  | .bool true => "true"
  | .bool false => "false"
  | .num q => serNum q
  | .str s => serStr s
  | .arr xs => "[" ++ serList xs ++ "]"
  | .obj fs => "\x7b" ++ serFields fs ++ "\x7d"

def serList : List Json → String
  | [] => ""
  | [x] => serJson x
  | x :: y :: xs => serJson x ++ "," ++ serList (y :: xs)

def serFields : List (String × Json) → String
  | [] => ""
  | [(k, v)] => serStr k ++ ":" ++ serJson v
  | (k, v) :: y :: xs => serStr k ++ ":" ++ serJson v ++ "," ++ serFields (y :: xs)

end

/-- The base64 alphabet (RFC 4648, as used by `Buffer.toString('base64')`
and `btoa`). -/
def b64Char (n : ℕ) : Char :=
  "ABCDEFGHIJKLMNOPQRSTUVWXYZabcdefghijklmnopqrstuvwxyz0123456789+/".data.getD n 'A'

/-- Base64-encode a byte list, with `=` padding. -/
def base64Chunks : List ℕ → List Char
  | [] => []
  | [b1] => [b64Char (b1 / 4), b64Char (b1 % 4 * 16), '=', '=']
  | [b1, b2] => [b64Char (b1 / 4), b64Char (b1 % 4 * 16 + b2 / 16), b64Char (b2 % 16 * 4), '=']
  | b1 :: b2 :: b3 :: rest =>
    b64Char (b1 / 4) :: b64Char (b1 % 4 * 16 + b2 / 16) ::
    b64Char (b2 % 16 * 4 + b3 / 64) :: b64Char (b3 % 64) :: base64Chunks rest

/-- Byte sequence of a string (UTF-8; the strings handled by the embedded
code are ASCII, where UTF-8 is the identity on code points). -/
def strBytes (s : String) : List ℕ :=
  s.data.map Char.toNat

/-- Model of `Buffer.from(s).toString('base64')` / `btoa(s)`. -/
def base64encStr (s : String) : String :=
  String.mk (base64Chunks (strBytes s))

/-- Value of a base64 alphabet character. -/
def b64Val (c : Char) : Option ℕ :=
  if 'A' ≤ c && c ≤ 'Z' then some (c.toNat - 'A'.toNat)
  else if 'a' ≤ c && c ≤ 'z' then some (c.toNat - 'a'.toNat + 26)
  else if '0' ≤ c && c ≤ '9' then some (c.toNat - '0'.toNat + 52)
  else if c == '+' then some 62
  else if c == '/' then some 63
  else none

/-- Base64-decode a character list (RFC 4648 with padding). -/
def base64DecChunks : List Char → Option (List ℕ)
  | [] => some []
  | [c1, c2, '=', '='] =>
    match b64Val c1, b64Val c2 with
    | some v1, some v2 => some [v1 * 4 + v2 / 16]
    | _, _ => none
  | [c1, c2, c3, '='] =>
    match b64Val c1, b64Val c2, b64Val c3 with
    | some v1, some v2, some v3 => some [v1 * 4 + v2 / 16, v2 % 16 * 16 + v3 / 4]
    | _, _, _ => none
  | c1 :: c2 :: c3 :: c4 :: rest =>
    match b64Val c1, b64Val c2, b64Val c3, b64Val c4, base64DecChunks rest with
    | some v1, some v2, some v3, some v4, some bs =>
      some ((v1 * 4 + v2 / 16) :: (v2 % 16 * 16 + v3 / 4) :: (v3 % 4 * 64 + v4) :: bs)
    | _, _, _, _, _ => none
  | _ => none

/-- Base64 decoding of a string back to the string it encodes (inverse of
`base64encStr` on ASCII payloads). -/
def base64decStr (s : String) : Option String :=
  (base64DecChunks s.data).map (fun bs => String.mk (bs.map Char.ofNat))

/-! ### Embedding of `payment-validator.ts` (src/unnamed/part_002)

`validatePayment` POSTs to `facilitatorUrl + "/verify"`; the outcome of that
call is an explicit oracle argument `fv`. `FacVerify.throws` models a thrown
communication error; `FacVerify.httpErr st` models `!response.ok` with status
`st`; `FacVerify.ok none` models a 2xx whose body failed to parse as JSON
(`response.json()` throwing, caught by the same catch-all); `FacVerify.ok
(some body)` models a 2xx with parsed JSON `body`. -/

inductive FacVerify : Type where
  | throws : FacVerify
  | httpErr (status : ℕ) : FacVerify
  | ok (body : Option Json) : FacVerify
deriving Repr

/-- JavaScript `s.slice(n)` on character positions (the strings sliced by the
embedded code are ASCII). -/
def strDropChars (s : String) (n : ℕ) : String :=
  String.mk (s.data.drop n)

/-- `s.startsWith('0x')`. -/
def startsWith0x (s : String) : Bool :=
  match s.data with
  | '0' :: 'x' :: _ => true
  | _ => false

/-- Regular-expression test `/^0x[0-9a-fA-F]+$/.test(s)`. -/
def isHex0x (s : String) : Bool :=
  match s.data with
  | '0' :: 'x' :: hx => !hx.isEmpty && hx.all isHexDigitChar
  | _ => false

/-- Embedding of `validatePaymentFallback` of `payment-validator.ts`:
format-only validation of a transaction hash. -/
def validatePaymentFallback (transactionHash : String) : Bool :=
  if transactionHash == "" || transactionHash.length < 10 then false
  else if startsWith0x transactionHash then
    if !isHex0x transactionHash then false
    else true
  else true

/-- Embedding of `validatePayment` of `payment-validator.ts`. The
`expectedRecipient`, `expectedAmount` and `facilitatorUrl` arguments are only
used to build the POSTed body; `fv` is the outcome of that POST. -/
def validatePayment (transactionHash : String) (expectedRecipient : String)
    (expectedAmount : String) (facilitatorUrl : String) (fv : FacVerify) : Bool :=
  match fv with
  | .throws => validatePaymentFallback transactionHash
  | .httpErr status =>
    if status == 404 || status == 501 then validatePaymentFallback transactionHash
    else false
  | .ok none => validatePaymentFallback transactionHash
  | .ok (some result) =>
    match jget (some result) "valid" with
    | some (.bool true) => true
    | _ => false

/-! ### Embedding of `validatePaymentOnChain` (payment-validator.ts)

The JSON-RPC provider is an explicit oracle: `RpcReceipt.throws` models a
thrown RPC error, `RpcReceipt.ok none` a missing receipt, `RpcReceipt.ok
(some r)` the fetched receipt. -/

structure EthLog : Type where
  address : String
  topics : List String
  data : String
deriving Repr

structure EthReceipt : Type where
  status : ℕ
  logs : List EthLog
deriving Repr

inductive RpcReceipt : Type where
  | throws : RpcReceipt
  | ok (receipt : Option EthReceipt) : RpcReceipt
deriving Repr

/-- `ethers.id('Transfer(address,address,uint256)')`: the keccak-256 hash of
the ERC-20 Transfer event signature (a fixed, well-known constant). -/
def transferTopic : String :=
  "0xddf252ad1be2c89b69c2b068fc378daa952ba7f163c4a11628f55a4df523b3ef"

/-- JavaScript `String.prototype.toLowerCase` (ASCII range). -/
def toLowerStr (s : String) : String := String.mk (s.data.map Char.toLower)

/-- Model of JavaScript `BigInt(string)`: `""` is `0`, `0x`-prefixed strings
parse as hex, plain digit strings as decimal, anything else throws (`none`). -/
def parseBigInt (s : String) : Option ℕ :=
  match s.data with
  | [] => some 0
  | '0' :: 'x' :: hx =>
    if hx.isEmpty || !(hx.all isHexDigitChar) then none
    else some (hexDigitsToNat hx)
  | ds => if ds.all isDigitChar then some (digitsToNat ds) else none

/-- Model of `ethers.getAddress(s).toLowerCase()`: succeeds on a `0x`-prefixed
40-hex-digit string whose letters are uniformly cased (the form RPC log topics
take), and lowering the checksummed result equals lowering the input. `none`
models a thrown error. (The mixed-case checksummed inputs `getAddress` also
accepts do not occur in RPC topics.) -/
def getAddressLower (s : String) : Option String :=
  match s.data with
  | '0' :: 'x' :: hx =>
    if hx.length == 40 && hx.all isHexDigitChar
        && (hx.all (fun c => !('A' ≤ c && c ≤ 'F'))
            || hx.all (fun c => !('a' ≤ c && c ≤ 'f'))) then
      some (toLowerStr s)
    else none
  | _ => none

/-- The loop body of `validatePaymentOnChain`: decode
`from = getAddress('0x' + topics[1].slice(26))`,
`to = getAddress('0x' + topics[2].slice(26))`, `amount = BigInt(data)`.
`none` models a thrown decoding error. -/
def decodeTransferLog (log : EthLog) : Option (String × String × ℕ) :=
  match log.topics.get? 1, log.topics.get? 2, parseBigInt log.data with
  | some t1, some t2, some amt =>
    match getAddressLower ("0x" ++ strDropChars t1 26),
        getAddressLower ("0x" ++ strDropChars t2 26) with
    | some fromL, some toL => some (fromL, toL, amt)
    | _, _ => none
  | _, _, _ => none

/-- The `for (const log of transferLogs)` loop: returns `some true` on the
first matching transfer, `some false` when no log matches, `none` when a
decoding step throws (which aborts the whole validation). -/
def scanTransferLogs (expectedRecipient expectedAmount : String) :
    List EthLog → Option Bool
  | [] => some false
  | log :: rest =>
    match decodeTransferLog log, parseBigInt expectedAmount with
    | some (_, toL, amt), some expAmt =>
      if toL == toLowerStr expectedRecipient && expAmt ≤ amt then some true
      else scanTransferLogs expectedRecipient expectedAmount rest
    | _, _ => none

/-- The `transferLogs` filter of `validatePaymentOnChain`:
`log.topics[0] === transferTopic && log.address.toLowerCase() ===
tokenAddress.toLowerCase()`. -/
def isAssetTransfer (tokenAddress : String) (log : EthLog) : Bool :=
  log.topics.get? 0 == some transferTopic
    && toLowerStr log.address == toLowerStr tokenAddress

/-- Embedding of `validatePaymentOnChain` of `payment-validator.ts`. The
`rpcUrl` argument only selects the provider; `rpc` is the outcome of
`provider.getTransactionReceipt(transactionHash)`. -/
def validatePaymentOnChain (transactionHash rpcUrl expectedRecipient : String)
    (expectedAmount tokenAddress : String) (rpc : RpcReceipt) : Bool :=
  match rpc with
  | .throws => false
  | .ok none => false
  | .ok (some receipt) =>
    if !(receipt.status == 1) then false
    else
      if (receipt.logs.filter (isAssetTransfer tokenAddress)).length == 0 then false
      else
        (scanTransferLogs expectedRecipient expectedAmount
          (receipt.logs.filter (isAssetTransfer tokenAddress))).getD false

/-- Well-formedness of an RPC log topic: `0x` followed by exactly 64
lowercase hex digits, the form every JSON-RPC provider returns. -/
def wfTopic (t : String) : Bool :=
  match t.data with
  | '0' :: 'x' :: hx =>
    hx.length == 64 && hx.all (fun c => isDigitChar c || ('a' ≤ c && c ≤ 'f'))
  | _ => false

/-- Well-formedness of an RPC log entry: three well-formed topics (the shape
of a non-anonymous three-argument event such as Transfer) and `0x`-hex data. -/
def wfLog (log : EthLog) : Bool :=
  log.topics.length == 3 && log.topics.all wfTopic &&
    (match log.data.data with
     | '0' :: 'x' :: hx => !hx.isEmpty && hx.all isHexDigitChar
     | _ => false)

/-- Well-formedness of an RPC receipt: every log entry is well-formed. -/
def wfReceipt (rec : EthReceipt) : Bool := rec.logs.all wfLog

/-- The `to` address the code decodes from a Transfer log
(`getAddress('0x' + topics[2].slice(26))`), lowercased. -/
def logToLower (log : EthLog) : String :=
  toLowerStr ("0x" ++ strDropChars (log.topics.getD 2 "") 26)

/-- The transfer value the code decodes from a Transfer log
(`BigInt(log.data)`). -/
def logValue (log : EthLog) : ℕ := (parseBigInt log.data).getD 0

/-! ### Embedding of the payment gate (`x402-api/src/index.ts`)

The `app.post` handler for the protected `/sentiment` route, staged exactly as
the code's early returns. The replay store (`processedPayments`, a module
level `Set`) is threaded explicitly as a list; per-request external outcomes
(the facilitator POST and `analyzeSentiment`) are oracle fields of the
request. -/

structure GateEnv : Type where
  usdcTokenAddress : Option String
  receiverWalletAddress : Option String
  paymentAmount : Option String
  network : Option String
deriving Repr

/-- Outcome of the facilitator POST for one request: a thrown communication
error (with `error.message`), a non-2xx response (with its status and body
text), or a 2xx response with parsed JSON body.  A 2xx whose body fails to
parse throws inside the same `try` and is modelled by `throws`. -/
inductive GateFacResult : Type where
  | throws (msg : String) : GateFacResult
  | notOk (status : ℕ) (errorText : String) : GateFacResult
  | ok (body : Json) : GateFacResult
deriving Repr

structure GateRequest : Type where
  paymentHeader : Option String
  body : Json
  facResult : GateFacResult
  sentimentResult : Except String Json
deriving Repr

structure HttpResponse : Type where
  status : ℕ
  body : Json
deriving Repr

/-- Result of one request: the HTTP response, the post-state of the replay
store, whether the facilitator was contacted, and whether the protected
resource (`analyzeSentiment`) was invoked. -/
structure StepOut : Type where
  resp : HttpResponse
  store : List (Option Json)
  facCalled : Bool
  resourceInvoked : Bool
deriving Repr

def challengeBody (env : GateEnv) : Json :=
  .obj [("methods", .arr [.obj [
    ("scheme", .str "eip3009"),
    ("asset", .str (jsOr env.usdcTokenAddress "0x036CbD53842c5426634e7929541eC2318f3dCF7e")),
    ("recipient", .str (jsOr env.receiverWalletAddress "0x501ab28fc3c7d29c2d12b243723eb5c5418b9de6")),
    ("maximumAmount", .str (jsOr env.paymentAmount "100000")),
    ("minimumAmount", .str (jsOr env.paymentAmount "100000")),
    ("network", .str (jsOr env.network "base-sepolia")),
    ("description", .str "Sentiment Analysis API - Premium GPT-4 powered analysis"),
    ("timeout", .num 300000)]])]

def challengeResp (env : GateEnv) : HttpResponse := ⟨402, challengeBody env⟩

def invalidFormatResp : HttpResponse :=
  ⟨400, .obj [("error", .str "Invalid payment format"),
              ("message", .str "X-PAYMENT header must contain valid JSON signed authorization")]⟩

def invalidAuthResp : HttpResponse :=
  ⟨400, .obj [("error", .str "Invalid authorization"),
              ("message", .str "Authorization missing required fields")]⟩

def replayResp : HttpResponse :=
  ⟨400, .obj [("error", .str "Payment already used"),
              ("message", .str "This payment authorization has already been processed")]⟩

def facErrResp (errorText : String) : HttpResponse :=
  ⟨402, .obj [("error", .str "Payment settlement failed"),
              ("message", .str ("Facilitator error: " ++ errorText))]⟩

def facNoHashResp : HttpResponse :=
  ⟨402, .obj [("error", .str "Payment settlement failed"),
              ("message", .str "Facilitator did not return transaction hash")]⟩

def facCommResp (msg : String) : HttpResponse :=
  ⟨502, .obj [("error", .str "Facilitator communication failed"),
              ("message", .str ("Could not reach payment facilitator: " ++ msg))]⟩

def missingTextResp : HttpResponse :=
  ⟨400, .obj [("error", .str "Missing required field: text")]⟩

def internalErrResp (msg : String) : HttpResponse :=
  ⟨500, .obj [("error", .str "Internal server error"), ("message", .str msg)]⟩

/-- The `payment` key merged into a successful response:
`{ transactionHash, status: 'confirmed', network: process.env.NETWORK }`
(an unset NETWORK is `undefined` and is dropped by `JSON.stringify`). -/
def paymentInfoJson (env : GateEnv) (tx : Json) : Json :=
  .obj ([("transactionHash", tx), ("status", .str "confirmed")] ++
    (match env.network with
     | some s => [("network", .str s)]
     | none => []))

/-- `{ ...result, payment: {...} }` (`analyzeSentiment` returns an object; a
non-object result contributes no fields). -/
def okBody (env : GateEnv) (result : Json) (tx : Json) : Json :=
  match result with
  | .obj fs => .obj (fs ++ [("payment", paymentInfoJson env tx)])
  | _ => .obj [("payment", paymentInfoJson env tx)]

/-- `signedAuth.payload.authorization.nonce` of the parsed header. -/
def authNonce (j : Json) : Option Json :=
  jget (jget (jget (some j) "payload") "authorization") "nonce"

/-- The structural check
`!signedAuth.payload?.signature || !signedAuth.payload?.authorization`
(negated: both fields truthy). -/
def structOk (j : Json) : Bool :=
  jsTruthy (jget (jget (some j) "payload") "signature")
    && jsTruthy (jget (jget (some j) "payload") "authorization")

/-- Steps 4-6 of the handler, after the nonce was marked used: extract `text`
from the request body, run `analyzeSentiment`, and answer 200 with the payment
confirmation merged in. -/
def gatePaid (env : GateEnv) (store' : List (Option Json)) (r : GateRequest)
    (tx : Json) : StepOut :=
  if jsTruthy (jget (some r.body) "text") then
    match r.sentimentResult with
    | .error msg => ⟨internalErrResp msg, store', true, true⟩
    | .ok result => ⟨⟨200, okBody env result tx⟩, store', true, true⟩
  else ⟨missingTextResp, store', true, false⟩

/-- Step 3 of the handler: submit the signed authorization to the facilitator;
on success mark the nonce as processed and continue. -/
def gateFac (env : GateEnv) (store : List (Option Json)) (r : GateRequest)
    (k : Option Json) : StepOut :=
  match r.facResult with
  | .throws msg => ⟨facCommResp msg, store, true, false⟩
  | .notOk _ errorText => ⟨facErrResp errorText, store, true, false⟩
  | .ok body =>
    let tx := jget (some body) "transactionHash"
    if jsTruthy tx then gatePaid env (store ++ [k]) r (tx.getD .null)
    else ⟨facNoHashResp, store, true, false⟩

/-- Replay check: `processedPayments.has(authNonce)`. -/
def gateReplay (env : GateEnv) (store : List (Option Json)) (r : GateRequest)
    (j : Json) : StepOut :=
  let k := authNonce j
  if store.any (opEq k) then ⟨replayResp, store, false, false⟩
  else gateFac env store r k

/-- Structural validation of the parsed header. -/
def gateParsed (env : GateEnv) (store : List (Option Json)) (r : GateRequest)
    (j : Json) : StepOut :=
  if structOk j then gateReplay env store r j
  else ⟨invalidAuthResp, store, false, false⟩

/-- The whole `/sentiment` handler for one request: absent (or empty, hence
falsy) X-PAYMENT header emits the 402 challenge; otherwise the header is
parsed with `JSON.parse` and handed to the following stages. -/
def gateStep (env : GateEnv) (store : List (Option Json)) (r : GateRequest) : StepOut :=
  match r.paymentHeader with
  | some hs =>
    if hs == "" then ⟨challengeResp env, store, false, false⟩
    else
      match jsonParse hs with
      | some j => gateParsed env store r j
      | none => ⟨invalidFormatResp, store, false, false⟩
  | none => ⟨challengeResp env, store, false, false⟩

/-- Sequential processing of a request list against the shared replay store
(the server handles requests one at a time in this model). -/
def runSeq (env : GateEnv) : List (Option Json) → List GateRequest →
    List (GateRequest × StepOut)
  | _, [] => []
  | store, r :: rs =>
    (r, gateStep env store r) :: runSeq env (gateStep env store r).store rs

/-- The parsed X-PAYMENT header of a request, when the header is present,
truthy and valid JSON (`none` otherwise). -/
def reqParsed (r : GateRequest) : Option Json :=
  match r.paymentHeader with
  | some hs => if hs == "" then none else jsonParse hs
  | none => none

/-- The request carries a signed authorization whose nonce is the string `n`
(the gate would extract exactly this value at its replay check). -/
def keyIsStr (r : GateRequest) (n : String) : Bool :=
  match reqParsed r with
  | some j => opEq (authNonce j) (some (.str n))
  | none => false

/-! ### Embedding of the client-side authorization signers

`X402Client.createSignedAuthorization` (x402-client, used by the agent tools)
and `X402ServerClient.createPaymentAuthorization` (the server-side agent
wallet client). Randomness (`ethers.randomBytes(32)`) and the clock
(`Date.now()`) are explicit arguments; `wallet.signTypedData` is an abstract
argument since its output bytes are not inspected by the embedded code. -/

/-- The `X402PaymentMethod` interface of the x402 client. The JavaScript
number `timeout` is modelled as an exact rational. -/
structure X402PaymentMethod : Type where
  scheme : String
  asset : String
  recipient : String
  maximumAmount : String
  minimumAmount : String
  network : String
  description : Option String
  timeout : Option ℚ
deriving Repr

/-- The normalized payment method `X402ServerClient.fetch` hands to
`createPaymentAuthorization` (`extra` flattened into its two used fields). -/
structure NormalizedMethod : Type where
  maximumAmount : String
  recipient : String
  timeout : Option ℚ
  scheme : String
  network : String
  asset : String
  description : Option String
  extraName : Option String
  extraVersion : Option String
deriving Repr

structure Eip712Domain : Type where
  name : String
  version : String
  chainId : ℕ
  verifyingContract : String
deriving Repr

/-- The EIP-712 `TransferWithAuthorization` message as signed (numeric fields
are JavaScript numbers, modelled as exact rationals). -/
structure TransferWithAuthorizationMsg : Type where
  fromAddr : String
  toAddr : String
  value : String
  validAfter : ℚ
  validBefore : ℚ
  nonce : String
deriving Repr

/-- Everything a signer computes: the EIP-712 domain and message it signs,
the signature, and the payload object it emits. -/
structure SignerOutput : Type where
  domain : Eip712Domain
  message : TransferWithAuthorizationMsg
  signature : String
  payloadJson : Json
deriving Repr

/-- One lowercase hex digit. -/
def hexDigitChar (k : ℕ) : Char :=
  if k < 10 then Char.ofNat ('0'.toNat + k) else Char.ofNat ('a'.toNat + k - 10)

/-- `ethers.hexlify`: lowercase hex rendering of a byte, two digits. -/
def byteHexChars (n : ℕ) : List Char :=
  [hexDigitChar (n / 16 % 16), hexDigitChar (n % 16)]

/-- `ethers.hexlify(bytes)`: `0x`-prefixed lowercase hex of a byte sequence. -/
def jsHexlify (bytes : List ℕ) : String :=
  "0x" ++ String.mk (bytes.flatMap byteHexChars)

/-- `X402Client.getChainId`: table lookup with `|| 84532` fallback. -/
def getChainId (network : String) : ℕ :=
  let looked : Option ℕ :=
    if network == "base" then some 8453
    else if network == "base-sepolia" then some 84532
    else if network == "ethereum" then some 1
    else if network == "sepolia" then some 11155111
    else if network == "polygon" then some 137
    else if network == "arbitrum" then some 42161
    else if network == "optimism" then some 10
    else none
  looked.getD 84532

/-- Decimal rendering of a JavaScript number whose value is an exact decimal
(every `validAfter`/`validBefore` the signers stringify is of this form);
non-decimal rationals fall back to a fraction rendering. -/
def qToDecimalString (q : ℚ) : String :=
  if q.den = 1 then toString q.num
  else
    match (List.range 20).find? (fun k => 10 ^ k % q.den == 0) with
    | some k =>
      let scaled : ℤ := q.num * ((10 ^ k : ℕ) / q.den : ℕ)
      let sgn := if scaled < 0 then "-" else ""
      let a := scaled.natAbs
      let fpStr := toString (a % 10 ^ k)
      let fpPad := String.mk (List.replicate (k - fpStr.length) '0') ++ fpStr
      let fpTrim := String.mk ((fpPad.data.reverse.dropWhile (· == '0')).reverse)
      sgn ++ toString (a / 10 ^ k) ++ "." ++ fpTrim
    | none => toString q.num ++ "/" ++ toString q.den

/-- The signed-authorization payload object both signers emit
(`{ x402Version: 1, scheme, network, payload: { signature, authorization }
}`), with the authorization's numeric fields already rendered to their wire
strings. -/
def signedAuthPayloadJson (scheme network signature fromAddr toAddr value : String)
    (validAfterStr validBeforeStr nonce : String) : Json :=
  .obj [("x402Version", .num 1), ("scheme", .str scheme), ("network", .str network),
        ("payload", .obj [("signature", .str signature),
          ("authorization", .obj [("from", .str fromAddr), ("to", .str toAddr),
            ("value", .str value), ("validAfter", .str validAfterStr),
            ("validBefore", .str validBeforeStr), ("nonce", .str nonce)])])]

/-- `validAfter + (method.timeout ? method.timeout / 1000 : 300)`: the shared
validity-window computation (JavaScript truthiness: a `0` timeout is falsy). -/
def validBeforeOf (validAfter : ℕ) (timeout : Option ℚ) : ℚ :=
  (validAfter : ℚ) +
    (match timeout with
     | some t => if t == 0 then 300 else t / 1000
     | none => 300)

/-- Embedding of `X402Client.createSignedAuthorization`. `nowMs` is
`Date.now()`, `randBytes` the 32 bytes drawn from `ethers.randomBytes`, and
`signTypedData` the wallet's EIP-712 signing primitive. -/
def clientCreateSignedAuthorization (walletAddress : String)
    (method : X402PaymentMethod) (nowMs : ℕ) (randBytes : List ℕ)
    (signTypedData : Eip712Domain → TransferWithAuthorizationMsg → String) :
    SignerOutput :=
  let nonce := jsHexlify randBytes
  let validAfter : ℕ := nowMs / 1000
  let validBefore : ℚ := validBeforeOf validAfter method.timeout
  let domain : Eip712Domain := ⟨"USDC", "2", getChainId method.network, method.asset⟩
  let message : TransferWithAuthorizationMsg :=
    ⟨walletAddress, method.recipient, method.maximumAmount,
     (validAfter : ℚ), validBefore, nonce⟩
  let signature := signTypedData domain message
  ⟨domain, message, signature,
   signedAuthPayloadJson method.scheme method.network signature walletAddress
     method.recipient method.maximumAmount (toString validAfter)
     (qToDecimalString validBefore) nonce⟩

/-- Embedding of `X402ServerClient.createPaymentAuthorization` (the TypeScript
function returns only the base64 header; the embedding also exposes the
intermediate domain, message and payload it computes). -/
def serverCreatePaymentAuthorization (thisAddress : String)
    (method : NormalizedMethod) (nowMs : ℕ) (randBytes : List ℕ)
    (signTypedData : Eip712Domain → TransferWithAuthorizationMsg → String) :
    SignerOutput :=
  let nonce := jsHexlify randBytes
  let validAfter : ℕ := nowMs / 1000
  let validBefore : ℚ := validBeforeOf validAfter method.timeout
  let domain : Eip712Domain :=
    ⟨jsOr method.extraName "USDC", jsOr method.extraVersion "2",
     (if method.network == "base" then 8453 else 84532), method.asset⟩
  let message : TransferWithAuthorizationMsg :=
    ⟨thisAddress, method.recipient, method.maximumAmount,
     (validAfter : ℚ), validBefore, nonce⟩
  let signature := signTypedData domain message
  ⟨domain, message, signature,
   signedAuthPayloadJson method.scheme method.network signature thisAddress
     method.recipient method.maximumAmount (toString validAfter)
     (qToDecimalString validBefore) nonce⟩

/-- `X402Client.fetch` step 4: `'X-PAYMENT': JSON.stringify(signedAuth)` —
the header carries the raw JSON serialization. -/
def clientPaymentHeaderValue (signedAuth : Json) : String :=
  serJson signedAuth

/-- `X402ServerClient.createPaymentAuthorization` final line:
`Buffer.from(JSON.stringify(payload)).toString('base64')` — the header (which
`X402ServerClient.fetch` attaches verbatim) carries the base64 encoding. -/
def serverPaymentHeaderValue (payload : Json) : String :=
  base64encStr (serJson payload)

/-! ### Concrete instances used by witnesses and counterexamples -/

/-- A concrete parsed SignedAuthorization with nonce `0xn1`. -/
def cAuthJson : Json :=
  .obj [("x402Version", .num 1), ("scheme", .str "eip3009"), ("network", .str "base-sepolia"),
        ("payload", .obj [("signature", .str "0xsig1"),
          ("authorization", .obj [("from", .str "0xaaa1"), ("to", .str "0xbbb1"),
            ("value", .str "100000"), ("validAfter", .str "1700000000"),
            ("validBefore", .str "1700000300"), ("nonce", .str "0xn1")])])]

/-- `cAuthJson` in its raw JSON wire form. -/
def cHeader : String := "\x7b\"x402Version\":1,\"scheme\":\"eip3009\",\"network\":\"base-sepolia\",\"payload\":\x7b\"signature\":\"0xsig1\",\"authorization\":\x7b\"from\":\"0xaaa1\",\"to\":\"0xbbb1\",\"value\":\"100000\",\"validAfter\":\"1700000000\",\"validBefore\":\"1700000300\",\"nonce\":\"0xn1\"\x7d\x7d\x7d"

/-- `cHeader` in its base64 wire form (`base64decStr cB64Header = some cHeader`). -/
def cB64Header : String := "eyJ4NDAyVmVyc2lvbiI6MSwic2NoZW1lIjoiZWlwMzAwOSIsIm5ldHdvcmsiOiJiYXNlLXNlcG9saWEiLCJwYXlsb2FkIjp7InNpZ25hdHVyZSI6IjB4c2lnMSIsImF1dGhvcml6YXRpb24iOnsiZnJvbSI6IjB4YWFhMSIsInRvIjoiMHhiYmIxIiwidmFsdWUiOiIxMDAwMDAiLCJ2YWxpZEFmdGVyIjoiMTcwMDAwMDAwMCIsInZhbGlkQmVmb3JlIjoiMTcwMDAwMDMwMCIsIm5vbmNlIjoiMHhuMSJ9fX0="

/-- A signed authorization that is long expired (`validBefore` is unix second
1, in 1970), nonce `0xn2`, in raw JSON wire form. -/
def cExpiredHeader : String := "\x7b\"x402Version\":1,\"scheme\":\"eip3009\",\"network\":\"base-sepolia\",\"payload\":\x7b\"signature\":\"0xsig2\",\"authorization\":\x7b\"from\":\"0xaaa1\",\"to\":\"0xbbb1\",\"value\":\"100000\",\"validAfter\":\"0\",\"validBefore\":\"1\",\"nonce\":\"0xn2\"\x7d\x7d\x7d"

/-- The parsed form of `cExpiredHeader`. -/
def cExpiredAuthJson : Json :=
  .obj [("x402Version", .num 1), ("scheme", .str "eip3009"), ("network", .str "base-sepolia"),
        ("payload", .obj [("signature", .str "0xsig2"),
          ("authorization", .obj [("from", .str "0xaaa1"), ("to", .str "0xbbb1"),
            ("value", .str "100000"), ("validAfter", .str "0"),
            ("validBefore", .str "1"), ("nonce", .str "0xn2")])])]

def cEnv : GateEnv := ⟨none, none, none, some "base-sepolia"⟩

/-- A fully successful request: valid header, facilitator settles with a
transaction hash, body has `text`. -/
def okReq : GateRequest :=
  ⟨some cHeader, .obj [("text", .str "hi")],
   .ok (.obj [("transactionHash", .str "0xdeadbeef")]),
   .ok (.obj [("sentiment", .str "positive")])⟩

/-- Same authorization, but the facilitator call throws. -/
def facDownReq : GateRequest :=
  ⟨some cHeader, .obj [("text", .str "hi")], .throws "ECONNREFUSED", .ok (.obj [])⟩

/-- Facilitator settles, but the body lacks the `text` field. -/
def noTextReq : GateRequest :=
  ⟨some cHeader, .obj [("other", .str "x")],
   .ok (.obj [("transactionHash", .str "0xdeadbeef")]), .ok (.obj [])⟩

/-- No X-PAYMENT header at all. -/
def noHdrReq : GateRequest :=
  ⟨none, .obj [("text", .str "hi")], .ok (.obj [("transactionHash", .str "0xd")]),
   .ok (.obj [])⟩

/-- The X-PAYMENT header carries base64(JSON) instead of raw JSON. -/
def b64Req : GateRequest :=
  ⟨some cB64Header, .obj [("text", .str "hi")],
   .ok (.obj [("transactionHash", .str "0xdeadbeef")]), .ok (.obj [])⟩

/-- An expired authorization, otherwise fully successful. -/
def expiredReq : GateRequest :=
  ⟨some cExpiredHeader, .obj [("text", .str "hi")],
   .ok (.obj [("transactionHash", .str "0xdeadbeef")]),
   .ok (.obj [("sentiment", .str "positive")])⟩

/-- 40 copies of one hex character, as a string chunk. -/
def hex40 (c : Char) : String := String.mk (List.replicate 40 c)

/-- A concrete asset (token) address. -/
def cToken : String := "0x" ++ hex40 'a'

/-- A concrete recipient address (mixed case; the log topic is lowercase). -/
def cRecipient : String := "0x" ++ (String.mk (List.replicate 20 'B')) ++ (String.mk (List.replicate 20 'b'))

/-- A Transfer log paying 100000 (= 0x186a0) to `cRecipient` from the
`cToken` contract. -/
def cTransferLog : EthLog :=
  ⟨cToken,
   [transferTopic,
    "0x" ++ String.mk (List.replicate 24 '0') ++ hex40 'c',
    "0x" ++ String.mk (List.replicate 24 '0') ++ hex40 'b'],
   "0x0186a0"⟩

/-- A successful receipt containing `cTransferLog`. -/
def cReceipt : EthReceipt := ⟨1, [cTransferLog]⟩

/-- A concrete 66-character transaction hash. -/
def cTxHash : String := "0x" ++ String.mk (List.replicate 64 'd')

/-- A concrete payment method for the signers (part_006 interface). -/
def cM6 : X402PaymentMethod :=
  ⟨"exact", "0xasset", "0xrcpt", "100000", "100000", "base-sepolia", none, some 300000⟩

/-- The same method normalized for the server client (part_009). -/
def cM9 : NormalizedMethod :=
  ⟨"100000", "0xrcpt", some 300000, "exact", "base-sepolia", "0xasset", none, none, none⟩

/-- A stub EIP-712 signing oracle. -/
def cSignFn : Eip712Domain → TransferWithAuthorizationMsg → String := fun _ _ => "0xsig"

/-- 32 zero bytes of randomness. -/
def cBytes : List ℕ := List.replicate 32 0

/-! ### Lemmas about the payment gate -/

/-- The facilitator settled: a 2xx response whose JSON body has a truthy
`transactionHash`. Its negation is exactly the failure set of §4.3.1: non-2xx
response, communication exception, or 2xx without a hash. -/
def facSettled : GateFacResult → Bool
  | .ok body => jsTruthy (jget (some body) "transactionHash")
  | _ => false

theorem gateStep_of_parsed (env : GateEnv) (store : List (Option Json))
    (r : GateRequest) (j : Json) (h : reqParsed r = some j) :
    gateStep env store r = gateParsed env store r j := by
  rcases hh : r.paymentHeader with _ | hs
  · simp [reqParsed, hh] at h
  · simp only [reqParsed, hh] at h
    by_cases he : hs = ""
    · simp [he] at h
    · have he2 : (hs == "") = false := by simp [he]
      simp only [he2, Bool.false_eq_true, if_false] at h
      simp only [gateStep, hh, he2, Bool.false_eq_true, if_false, h]

theorem opEq_str_iff (n : String) (x : Option Json) :
    opEq x (some (.str n)) = true ↔ x = some (.str n) := by
  rcases x with _ | v
  · simp [opEq]
  · cases v <;> simp [opEq, sameValueZero]

theorem opEq_str_iff2 (n : String) (x : Option Json) :
    opEq (some (.str n)) x = true ↔ x = some (.str n) := by
  rcases x with _ | v
  · simp [opEq]
  · cases v <;> simp [opEq, sameValueZero]
    exact eq_comm

theorem any_opEq_str (store : List (Option Json)) (n : String) :
    store.any (opEq (some (.str n))) = true ↔ some (Json.str n) ∈ store := by
  rw [List.any_eq_true]
  constructor
  · rintro ⟨x, hx, hop⟩
    rwa [(opEq_str_iff2 n x).mp hop] at hx
  · intro hm
    exact ⟨some (Json.str n), hm, (opEq_str_iff2 n _).mpr rfl⟩

theorem keyIsStr_elim (r : GateRequest) (n : String) (hk : keyIsStr r n = true) :
    ∃ j, reqParsed r = some j ∧ authNonce j = some (.str n) := by
  unfold keyIsStr at hk
  rcases hp : reqParsed r with _ | j
  · rw [hp] at hk; cases hk
  · rw [hp] at hk
    exact ⟨j, rfl, (opEq_str_iff n _).mp hk⟩

theorem gateStep_store_append (env : GateEnv) (store : List (Option Json))
    (r : GateRequest) : ∃ t, (gateStep env store r).store = store ++ t := by
  rcases hp : reqParsed r with _ | j
  · unfold gateStep
    rcases hh : r.paymentHeader with _ | hs
    · exact ⟨[], by simp⟩
    · simp only [reqParsed, hh] at hp
      by_cases he : (hs == "") = true
      · simp only [he, if_true]
        exact ⟨[], by simp⟩
      · rw [Bool.not_eq_true] at he
        simp only [he, Bool.false_eq_true, if_false] at hp
        simp only [he, Bool.false_eq_true, if_false, hp]
        exact ⟨[], by simp⟩
  · rw [gateStep_of_parsed env store r j hp]
    unfold gateParsed gateReplay gateFac gatePaid
    by_cases hst : structOk j = true
    case neg =>
      rw [Bool.not_eq_true] at hst
      simp only [hst]
      simp
    case pos =>
    simp only [hst, if_true]
    by_cases hm : store.any (opEq (authNonce j)) = true
    · simp only [hm, if_true]
      exact ⟨[], by simp⟩
    · rw [Bool.not_eq_true] at hm
      simp only [hm, Bool.false_eq_true, if_false]
      rcases hfr : r.facResult with msg | ⟨st, txt⟩ | body <;> simp only []
      · exact ⟨[], by simp⟩
      · exact ⟨[], by simp⟩
      · by_cases htx : jsTruthy (jget (some body) "transactionHash") = true
        case neg =>
          rw [Bool.not_eq_true] at htx
          simp only [htx]
          simp
        case pos =>
        simp only [htx, if_true]
        by_cases htext : jsTruthy (jget (some r.body) "text") = true
        · simp only [htext, if_true]
          rcases hsr : r.sentimentResult with m | res <;> exact ⟨[authNonce j], rfl⟩
        · rw [Bool.not_eq_true] at htext
          simp only [htext, Bool.false_eq_true, if_false]
          exact ⟨[authNonce j], rfl⟩

theorem mem_gateStep_store (env : GateEnv) (store : List (Option Json))
    (r : GateRequest) (x : Option Json) (hx : x ∈ store) :
    x ∈ (gateStep env store r).store := by
  obtain ⟨t, ht⟩ := gateStep_store_append env store r
  rw [ht]
  exact List.mem_append_left t hx

theorem gateStep_member (env : GateEnv) (store : List (Option Json))
    (r : GateRequest) (n : String) (hk : keyIsStr r n = true)
    (hm : some (Json.str n) ∈ store) :
    (gateStep env store r).resp.status = 400 ∧ (gateStep env store r).facCalled = false
      ∧ (gateStep env store r).resourceInvoked = false
      ∧ (gateStep env store r).store = store := by
  obtain ⟨j, hp, hn⟩ := keyIsStr_elim r n hk
  rw [gateStep_of_parsed env store r j hp]
  unfold gateParsed gateReplay
  by_cases hst : structOk j = true
  · have hany : store.any (opEq (authNonce j)) = true := by
      rw [hn]; exact (any_opEq_str store n).mpr hm
    simp [hst, hany, replayResp]
  · rw [Bool.not_eq_true] at hst
    simp [hst, invalidAuthResp]

theorem gateStep_invoked (env : GateEnv) (store : List (Option Json))
    (r : GateRequest) (n : String) (hk : keyIsStr r n = true)
    (hi : (gateStep env store r).resourceInvoked = true) :
    some (Json.str n) ∉ store
      ∧ (gateStep env store r).store = store ++ [some (Json.str n)] := by
  obtain ⟨j, hp, hn⟩ := keyIsStr_elim r n hk
  rw [gateStep_of_parsed env store r j hp] at hi ⊢
  unfold gateParsed gateReplay gateFac gatePaid at hi ⊢
  by_cases hst : structOk j = true
  case neg =>
    rw [Bool.not_eq_true] at hst
    simp [hst] at hi
  case pos =>
  simp only [hst, if_true] at hi ⊢
  by_cases hany : store.any (opEq (authNonce j)) = true
  · simp [hany] at hi
  · rw [Bool.not_eq_true] at hany
    simp only [hany, Bool.false_eq_true, if_false] at hi ⊢
    have hnotmem : some (Json.str n) ∉ store := by
      intro hmem
      have hc := (any_opEq_str store n).mpr hmem
      rw [← hn] at hc
      rw [hc] at hany
      cases hany
    refine ⟨hnotmem, ?_⟩
    generalize hfr : r.facResult = fr at hi ⊢
    rcases fr with msg | ⟨st, txt⟩ | body
    · simp at hi
    · simp at hi
    · by_cases htx : jsTruthy (jget (some body) "transactionHash") = true
      case neg =>
        rw [Bool.not_eq_true] at htx
        simp [htx] at hi
      case pos =>
      simp only [htx, if_true] at hi ⊢
      by_cases htext : jsTruthy (jget (some r.body) "text") = true
      · simp only [htext, if_true]
        generalize r.sentimentResult = sr
        rcases sr with m | res <;> simp [hn]
      · rw [Bool.not_eq_true] at htext
        simp [htext] at hi

theorem gateStep_fresh_callsFac (env : GateEnv) (store : List (Option Json))
    (r : GateRequest) (j : Json) (hp : reqParsed r = some j)
    (hst : structOk j = true)
    (hany : store.any (opEq (authNonce j)) = false) :
    (gateStep env store r).facCalled = true := by
  rw [gateStep_of_parsed env store r j hp]
  unfold gateParsed gateReplay gateFac gatePaid
  simp only [hst, if_true, hany, Bool.false_eq_true, if_false]
  generalize r.facResult = fr
  rcases fr with msg | ⟨st, txt⟩ | body
  · rfl
  · rfl
  · by_cases htx : jsTruthy (jget (some body) "transactionHash") = true
    case neg =>
      rw [Bool.not_eq_true] at htx
      simp [htx]
    case pos =>
    simp only [htx, if_true]
    by_cases htext : jsTruthy (jget (some r.body) "text") = true
    · simp only [htext, if_true]
      generalize r.sentimentResult = sr
      rcases sr with m | res <;> rfl
    · rw [Bool.not_eq_true] at htext
      simp [htext]

theorem gateStep_facFail (env : GateEnv) (store : List (Option Json))
    (r : GateRequest) (j : Json) (hp : reqParsed r = some j)
    (hst : structOk j = true)
    (hany : store.any (opEq (authNonce j)) = false)
    (hfail : facSettled r.facResult = false) :
    (gateStep env store r).store = store
      ∧ (gateStep env store r).resourceInvoked = false
      ∧ ((gateStep env store r).resp.status = 402
          ∨ (gateStep env store r).resp.status = 502) := by
  rw [gateStep_of_parsed env store r j hp]
  unfold gateParsed gateReplay gateFac gatePaid
  simp only [hst, if_true, hany, Bool.false_eq_true, if_false]
  generalize hfr : r.facResult = fr at hfail
  rcases fr with msg | ⟨st, txt⟩ | body
  · simp [facCommResp]
  · simp [facErrResp]
  · simp only [facSettled] at hfail
    simp only [hfail, Bool.false_eq_true, if_false]
    simp [facNoHashResp]

theorem gateStep_settle_invokes (env : GateEnv) (store : List (Option Json))
    (r : GateRequest) (j : Json) (hp : reqParsed r = some j)
    (hst : structOk j = true)
    (hany : store.any (opEq (authNonce j)) = false)
    (hset : facSettled r.facResult = true)
    (htext : jsTruthy (jget (some r.body) "text") = true) :
    (gateStep env store r).resourceInvoked = true := by
  rw [gateStep_of_parsed env store r j hp]
  unfold gateParsed gateReplay gateFac gatePaid
  simp only [hst, if_true, hany, Bool.false_eq_true, if_false]
  generalize hfr : r.facResult = fr at hset
  rcases fr with msg | ⟨st, txt⟩ | body
  · cases hset
  · cases hset
  · simp only [facSettled] at hset
    simp only [hset, if_true, htext]
    generalize r.sentimentResult = sr
    rcases sr with m | res <;> rfl

theorem gateStep_settle_noText (env : GateEnv) (store : List (Option Json))
    (r : GateRequest) (j : Json) (hp : reqParsed r = some j)
    (hst : structOk j = true)
    (hany : store.any (opEq (authNonce j)) = false)
    (hset : facSettled r.facResult = true)
    (htext : jsTruthy (jget (some r.body) "text") = false) :
    (gateStep env store r).resp.status = 400
      ∧ (gateStep env store r).resourceInvoked = false
      ∧ (gateStep env store r).store = store ++ [authNonce j] := by
  rw [gateStep_of_parsed env store r j hp]
  unfold gateParsed gateReplay gateFac gatePaid
  simp only [hst, if_true, hany, Bool.false_eq_true, if_false]
  generalize hfr : r.facResult = fr at hset
  rcases fr with msg | ⟨st, txt⟩ | body
  · cases hset
  · cases hset
  · simp only [facSettled] at hset
    simp only [hset, if_true, htext, Bool.false_eq_true, if_false]
    simp [missingTextResp]

theorem runSeq_member_reject (env : GateEnv) (n : String) :
    ∀ (reqs : List GateRequest) (store : List (Option Json)),
      some (Json.str n) ∈ store →
      ∀ (i : ℕ) (p : GateRequest × StepOut),
        (runSeq env store reqs)[i]? = some p → keyIsStr p.1 n = true →
        p.2.resp.status = 400 ∧ p.2.facCalled = false
          ∧ p.2.resourceInvoked = false := by
  intro reqs
  induction reqs with
  | nil => intro store _ i p hget; simp [runSeq] at hget
  | cons r rs ih =>
    intro store hm i p hget hk
    rw [show runSeq env store (r :: rs)
          = (r, gateStep env store r) :: runSeq env (gateStep env store r).store rs
        from rfl] at hget
    rcases i with _ | i2
    · simp only [List.getElem?_cons_zero, Option.some.injEq] at hget
      subst hget
      obtain ⟨h1, h2, h3, _⟩ := gateStep_member env store r n hk hm
      exact ⟨h1, h2, h3⟩
    · rw [List.getElem?_cons_succ] at hget
      exact ih (gateStep env store r).store
        (mem_gateStep_store env store r _ hm) i2 p hget hk

theorem runSeq_count_zero (env : GateEnv) (n : String) :
    ∀ (reqs : List GateRequest) (store : List (Option Json)),
      some (Json.str n) ∈ store →
      ((runSeq env store reqs).filter
        (fun p => keyIsStr p.1 n && p.2.resourceInvoked)).length = 0 := by
  intro reqs
  induction reqs with
  | nil => intro store _; simp [runSeq]
  | cons r rs ih =>
    intro store hm
    rw [show runSeq env store (r :: rs)
          = (r, gateStep env store r) :: runSeq env (gateStep env store r).store rs
        from rfl]
    have hhd : (keyIsStr r n && (gateStep env store r).resourceInvoked) = false := by
      by_cases hk : keyIsStr r n = true
      · obtain ⟨_, _, h3, _⟩ := gateStep_member env store r n hk hm
        simp [hk, h3]
      · rw [Bool.not_eq_true] at hk
        simp [hk]
    rw [List.filter_cons]
    simp only [hhd, Bool.false_eq_true, if_false]
    exact ih (gateStep env store r).store (mem_gateStep_store env store r _ hm)

theorem runSeq_count_le_one (env : GateEnv) (n : String) :
    ∀ (reqs : List GateRequest) (store : List (Option Json)),
      ((runSeq env store reqs).filter
        (fun p => keyIsStr p.1 n && p.2.resourceInvoked)).length ≤ 1 := by
  intro reqs
  induction reqs with
  | nil => intro store; simp [runSeq]
  | cons r rs ih =>
    intro store
    rw [show runSeq env store (r :: rs)
          = (r, gateStep env store r) :: runSeq env (gateStep env store r).store rs
        from rfl]
    rw [List.filter_cons]
    by_cases hb : (keyIsStr r n && (gateStep env store r).resourceInvoked) = true
    · simp only [hb, if_true, List.length_cons]
      have hk : keyIsStr r n = true := (Bool.and_eq_true _ _).mp hb |>.1
      have hi : (gateStep env store r).resourceInvoked = true :=
        (Bool.and_eq_true _ _).mp hb |>.2
      obtain ⟨_, hst⟩ := gateStep_invoked env store r n hk hi
      have hz := runSeq_count_zero env n rs (gateStep env store r).store
        (by rw [hst]; exact List.mem_append_right store (by simp))
      omega
    · rw [Bool.not_eq_true] at hb
      simp only [hb, Bool.false_eq_true, if_false]
      exact ih (gateStep env store r).store

theorem runSeq_once_then_reject (env : GateEnv) (n : String) :
    ∀ (reqs : List GateRequest) (store0 : List (Option Json)) (i j : ℕ)
      (ri rj : GateRequest) (oi oj : StepOut),
      i < j →
      (runSeq env store0 reqs)[i]? = some (ri, oi) →
      keyIsStr ri n = true → oi.resourceInvoked = true →
      (runSeq env store0 reqs)[j]? = some (rj, oj) →
      keyIsStr rj n = true →
      oj.resp.status = 400 ∧ oj.facCalled = false ∧ oj.resourceInvoked = false := by
  intro reqs
  induction reqs with
  | nil =>
    intro store0 i j ri rj oi oj hij hgi
    simp [runSeq] at hgi
  | cons r rs ih =>
    intro store0 i j ri rj oi oj hij hgi hki hii hgj hkj
    rw [show runSeq env store0 (r :: rs)
          = (r, gateStep env store0 r) :: runSeq env (gateStep env store0 r).store rs
        from rfl] at hgi hgj
    rcases i with _ | i2
    · simp only [List.getElem?_cons_zero, Option.some.injEq] at hgi
      rcases j with _ | j2
      · exact absurd hij (by omega)
      · rw [List.getElem?_cons_succ] at hgj
        have hr : r = ri := congrArg Prod.fst hgi
        have ho : gateStep env store0 r = oi := congrArg Prod.snd hgi
        obtain ⟨_, hst⟩ := gateStep_invoked env store0 r n (hr ▸ hki) (ho ▸ hii)
        exact runSeq_member_reject env n rs (gateStep env store0 r).store
          (by rw [hst]; exact List.mem_append_right store0 (by simp)) j2 (rj, oj) hgj hkj
    · rcases j with _ | j2
      · exact absurd hij (by omega)
      · rw [List.getElem?_cons_succ] at hgi hgj
        exact ih (gateStep env store0 r).store i2 j2 ri rj oi oj
          (by omega) hgi hki hii hgj hkj

/-! ### Lemmas about the on-chain validator -/

theorem hex_lower_split (c : Char)
    (h : (isDigitChar c || ('a' ≤ c && c ≤ 'f')) = true) :
    isHexDigitChar c = true ∧ ('A' ≤ c && c ≤ 'F') = false := by
  rcases Bool.or_eq_true _ _ |>.mp h with hd | haf
  · refine ⟨by simp [isHexDigitChar, hd], ?_⟩
    unfold isDigitChar at hd
    rw [Bool.and_eq_true, decide_eq_true_eq, decide_eq_true_eq] at hd
    rw [Bool.and_eq_false_iff]
    left
    rw [decide_eq_false_iff_not]
    intro hA
    exact absurd (le_trans hA hd.2) (by decide)
  · refine ⟨by simp [isHexDigitChar, haf], ?_⟩
    rw [Bool.and_eq_true, decide_eq_true_eq, decide_eq_true_eq] at haf
    rw [Bool.and_eq_false_iff]
    right
    rw [decide_eq_false_iff_not]
    intro hF
    exact absurd (le_trans haf.1 hF) (by decide)

theorem getAddressLower_of_wfTopic (t : String) (h : wfTopic t = true) :
    getAddressLower ("0x" ++ strDropChars t 26)
      = some (toLowerStr ("0x" ++ strDropChars t 26)) := by
  unfold wfTopic at h
  split at h
  case _ hx heq =>
    rw [Bool.and_eq_true] at h
    obtain ⟨hlen, hall⟩ := h
    rw [beq_iff_eq] at hlen
    rw [List.all_eq_true] at hall
    have hdata : ("0x" ++ strDropChars t 26).data = '0' :: 'x' :: (t.data.drop 26) := by
      rw [String.data_append]
      rfl
    have hdrop : t.data.drop 26 = hx.drop 24 := by
      rw [heq]
      rfl
    unfold getAddressLower
    rw [hdata, hdrop]
    have hlen40 : ((hx.drop 24).length == 40) = true := by
      rw [List.length_drop, hlen]
      rfl
    have hsub : ∀ c ∈ hx.drop 24, (isDigitChar c || ('a' ≤ c && c ≤ 'f')) = true :=
      fun c hc => hall c (List.drop_subset 24 hx hc)
    have hhex : (hx.drop 24).all isHexDigitChar = true := by
      rw [List.all_eq_true]
      exact fun c hc => (hex_lower_split c (hsub c hc)).1
    have hnoupper : ((hx.drop 24).all (fun c => !('A' ≤ c && c ≤ 'F'))) = true := by
      rw [List.all_eq_true]
      intro c hc
      rw [Bool.not_eq_true']
      exact (hex_lower_split c (hsub c hc)).2
    show (if ((hx.drop 24).length == 40 && (hx.drop 24).all isHexDigitChar
          && ((hx.drop 24).all (fun c => !('A' ≤ c && c ≤ 'F'))
              || (hx.drop 24).all (fun c => !('a' ≤ c && c ≤ 'f')))) = true then
        some (toLowerStr ("0x" ++ strDropChars t 26)) else none)
      = some (toLowerStr ("0x" ++ strDropChars t 26))
    rw [hlen40, hhex, hnoupper]
    rfl
  case _ => cases h

theorem decodeTransferLog_of_wf (log : EthLog) (h : wfLog log = true) :
    ∃ fromL, decodeTransferLog log = some (fromL, logToLower log, logValue log) := by
  unfold wfLog at h
  rw [Bool.and_eq_true, Bool.and_eq_true] at h
  obtain ⟨⟨hlen, htopics⟩, hdata⟩ := h
  rw [beq_iff_eq] at hlen
  obtain ⟨t0, t1, t2, heq⟩ := List.length_eq_three.mp hlen
  rw [List.all_eq_true] at htopics
  have hw1 : wfTopic t1 = true := htopics t1 (by rw [heq]; simp)
  have hw2 : wfTopic t2 = true := htopics t2 (by rw [heq]; simp)
  split at hdata
  case _ hx heqd =>
    rw [Bool.and_eq_true] at hdata
    obtain ⟨hne, hhex⟩ := hdata
    have hbig : parseBigInt log.data = some (hexDigitsToNat hx) := by
      unfold parseBigInt
      rw [heqd]
      rcases hx with _ | ⟨c, cs⟩
      · cases hne
      · simp [hhex]
    have hg1 : log.topics.get? 1 = some t1 := by rw [heq]; rfl
    have hg2 : log.topics.get? 2 = some t2 := by rw [heq]; rfl
    have hto : logToLower log = toLowerStr ("0x" ++ strDropChars t2 26) := by
      unfold logToLower
      rw [heq]
      rfl
    have hval : logValue log = hexDigitsToNat hx := by
      unfold logValue
      rw [hbig]
      rfl
    refine ⟨toLowerStr ("0x" ++ strDropChars t1 26), ?_⟩
    rw [hto, hval]
    unfold decodeTransferLog
    rw [hg1, hg2, hbig]
    show (match getAddressLower ("0x" ++ strDropChars t1 26),
        getAddressLower ("0x" ++ strDropChars t2 26) with
      | some fromL, some toL => some (fromL, toL, hexDigitsToNat hx)
      | _, _ => none)
      = some (toLowerStr ("0x" ++ strDropChars t1 26),
          toLowerStr ("0x" ++ strDropChars t2 26), hexDigitsToNat hx)
    rw [getAddressLower_of_wfTopic t1 hw1, getAddressLower_of_wfTopic t2 hw2]
  case _ => cases hdata

theorem scanTransferLogs_getD_iff (expectedRecipient expectedAmount : String)
    (A : ℕ) (hA : parseBigInt expectedAmount = some A) :
    ∀ logs : List EthLog, logs.all wfLog = true →
      ((scanTransferLogs expectedRecipient expectedAmount logs).getD false = true ↔
        ∃ log ∈ logs, logToLower log = toLowerStr expectedRecipient
          ∧ A ≤ logValue log) := by
  intro logs
  induction logs with
  | nil =>
    intro _
    simp [scanTransferLogs]
  | cons l ls ih =>
    intro hwf
    rw [List.all_cons, Bool.and_eq_true] at hwf
    obtain ⟨hwl, hwls⟩ := hwf
    obtain ⟨fromL, hdec⟩ := decodeTransferLog_of_wf l hwl
    rw [show scanTransferLogs expectedRecipient expectedAmount (l :: ls)
          = (match decodeTransferLog l, parseBigInt expectedAmount with
             | some (_, toL, amt), some expAmt =>
               if toL == toLowerStr expectedRecipient && expAmt ≤ amt then some true
               else scanTransferLogs expectedRecipient expectedAmount ls
             | _, _ => none)
        from rfl]
    rw [hdec, hA]
    show ((if logToLower l == toLowerStr expectedRecipient && A ≤ logValue l
        then some true
        else scanTransferLogs expectedRecipient expectedAmount ls).getD false = true
      ↔ _)
    by_cases hc : (logToLower l == toLowerStr expectedRecipient
        && decide (A ≤ logValue l)) = true
    · rw [Bool.and_eq_true, beq_iff_eq, decide_eq_true_eq] at hc
      simp only [hc.1, hc.2]
      simp [hc.1, hc.2]
    · rw [Bool.not_eq_true] at hc
      rw [if_neg (by rw [hc]; exact Bool.false_ne_true)]
      rw [ih hwls]
      rw [Bool.and_eq_false_iff] at hc
      constructor
      · rintro ⟨log, hmem, hcond⟩
        exact ⟨log, List.mem_cons_of_mem l hmem, hcond⟩
      · rintro ⟨log, hmem, hcond⟩
        rcases List.mem_cons.mp hmem with heq | hmem2
        · subst heq
          rcases hc with h1 | h2
          · rw [beq_eq_false_iff_ne] at h1
            exact absurd hcond.1 h1
          · rw [decide_eq_false_iff_not] at h2
            exact absurd hcond.2 h2
        · exact ⟨log, hmem2, hcond⟩

/-- C8: the on-chain validator accepts a transaction hash if and only if the
receipt exists, its status is success, and some Transfer log emitted by the
configured asset contract pays the expected recipient (case-insensitively) at
least the expected amount; in every other case — including a missing receipt
or a thrown RPC error — it rejects. Receipts are quantified over the
well-formed shapes a JSON-RPC provider returns. -/
theorem chain_validator_accepts_iff (transactionHash rpcUrl : String)
    (expectedRecipient expectedAmount tokenAddress : String) (rpc : RpcReceipt)
    (A : ℕ) (hA : parseBigInt expectedAmount = some A)
    (hwf : ∀ rec, rpc = .ok (some rec) → wfReceipt rec = true) :
    validatePaymentOnChain transactionHash rpcUrl expectedRecipient
        expectedAmount tokenAddress rpc = true
      ↔ ∃ rec, rpc = RpcReceipt.ok (some rec) ∧ rec.status = 1
          ∧ ∃ log ∈ rec.logs, isAssetTransfer tokenAddress log = true
              ∧ logToLower log = toLowerStr expectedRecipient
              ∧ A ≤ logValue log := by
  rcases rpc with _ | orec
  · simp [validatePaymentOnChain]
  rcases orec with _ | rec
  · simp [validatePaymentOnChain]
  have hw := hwf rec rfl
  by_cases hst : rec.status = 1
  case neg =>
    have hstb : (rec.status == 1) = false := by
      rw [beq_eq_false_iff_ne]
      exact hst
    simp [validatePaymentOnChain, hstb, hst]
  case pos =>
  have hred : validatePaymentOnChain transactionHash rpcUrl expectedRecipient
      expectedAmount tokenAddress (.ok (some rec))
      = (if (rec.logs.filter (isAssetTransfer tokenAddress)).length == 0 then false
         else (scanTransferLogs expectedRecipient expectedAmount
            (rec.logs.filter (isAssetTransfer tokenAddress))).getD false) := by
    simp [validatePaymentOnChain, hst]
  rw [hred]
  have hmemwf : (rec.logs.filter (isAssetTransfer tokenAddress)).all wfLog = true := by
    rw [List.all_eq_true]
    intro log hmem
    have hw2 : rec.logs.all wfLog = true := hw
    rw [List.all_eq_true] at hw2
    exact hw2 log (List.mem_of_mem_filter hmem)
  by_cases hF : ((rec.logs.filter (isAssetTransfer tokenAddress)).length == 0) = true
  · rw [if_pos hF]
    rw [beq_iff_eq, List.length_eq_zero] at hF
    constructor
    · intro h; cases h
    · rintro ⟨rec2, hr2, _, log, hmem, hpred, _⟩
      rw [RpcReceipt.ok.injEq, Option.some.injEq] at hr2
      subst hr2
      have : log ∈ rec.logs.filter (isAssetTransfer tokenAddress) :=
        List.mem_filter.mpr ⟨hmem, hpred⟩
      rw [hF] at this
      cases this
  · rw [if_neg (by rw [Bool.not_eq_true] at hF; rw [hF]; exact Bool.false_ne_true)]
    rw [scanTransferLogs_getD_iff expectedRecipient expectedAmount A hA _ hmemwf]
    constructor
    · rintro ⟨log, hmem, hcond⟩
      obtain ⟨hmem2, hpred⟩ := List.mem_filter.mp hmem
      exact ⟨rec, rfl, hst, log, hmem2, hpred, hcond⟩
    · rintro ⟨rec2, hr2, _, log, hmem, hpred, hcond⟩
      rw [RpcReceipt.ok.injEq, Option.some.injEq] at hr2
      subst hr2
      exact ⟨log, List.mem_filter.mpr ⟨hmem, hpred⟩, hcond⟩

/-! ### Lemmas about the wire encodings -/

theorem base64Chunks_head (b : ℕ) (bs : List ℕ) :
    (base64Chunks (b :: bs)).head? = some (b64Char (b / 4)) := by
  rcases bs with _ | ⟨b2, bs2⟩
  · rfl
  · rcases bs2 with _ | ⟨b3, bs3⟩
    · rfl
    · rfl

theorem serJson_obj_data (fs : List (String × Json)) :
    ∃ t, (serJson (.obj fs)).data = '\x7b' :: t := by
  refine ⟨(serFields fs).data ++ "\x7d".data, ?_⟩
  conv_lhs => rw [show serJson (.obj fs) = "\x7b" ++ serFields fs ++ "\x7d" by
    simp [serJson]]
  rw [String.data_append, String.data_append]
  rfl

theorem serJson_obj_ne_base64 (fs : List (String × Json)) :
    serJson (.obj fs) ≠ base64encStr (serJson (.obj fs)) := by
  intro hEq
  obtain ⟨t, ht⟩ := serJson_obj_data fs
  have h1 : (serJson (.obj fs)).data.head? = some '\x7b' := by rw [ht]; rfl
  have h2 : (base64encStr (serJson (.obj fs))).data.head? = some (b64Char 30) := by
    show (base64Chunks ((serJson (.obj fs)).data.map Char.toNat)).head? = some (b64Char 30)
    rw [ht, List.map_cons, base64Chunks_head]
    rfl
  rw [hEq] at h1
  rw [h1] at h2
  cases h2

theorem gateParsed_not_invalid_format (env : GateEnv) (store : List (Option Json))
    (r : GateRequest) (j : Json) :
    ¬((gateParsed env store r j).resp.status = 400
      ∧ jget (some (gateParsed env store r j).resp.body) "error"
          = some (.str "Invalid payment format")) := by
  unfold gateParsed gateReplay gateFac gatePaid
  by_cases hst : structOk j = true
  case neg =>
    rw [Bool.not_eq_true] at hst
    simp only [hst, Bool.false_eq_true, if_false]
    rintro ⟨_, h2⟩
    simp [invalidAuthResp, jget] at h2
  case pos =>
  simp only [hst, if_true]
  by_cases hany : store.any (opEq (authNonce j)) = true
  · simp only [hany, if_true]
    rintro ⟨_, h2⟩
    simp [replayResp, jget] at h2
  · rw [Bool.not_eq_true] at hany
    simp only [hany, Bool.false_eq_true, if_false]
    generalize r.facResult = fr
    rcases fr with msg | ⟨st, txt⟩ | body
    · rintro ⟨h1, _⟩
      simp [facCommResp] at h1
    · rintro ⟨h1, _⟩
      simp [facErrResp] at h1
    · by_cases htx : jsTruthy (jget (some body) "transactionHash") = true
      case neg =>
        rw [Bool.not_eq_true] at htx
        simp only [htx, Bool.false_eq_true, if_false]
        rintro ⟨h1, _⟩
        simp [facNoHashResp] at h1
      case pos =>
      simp only [htx, if_true]
      by_cases htext : jsTruthy (jget (some r.body) "text") = true
      · simp only [htext, if_true]
        generalize r.sentimentResult = sr
        rcases sr with m | res
        · rintro ⟨h1, _⟩
          simp [internalErrResp] at h1
        · rintro ⟨h1, _⟩
          simp at h1
      · rw [Bool.not_eq_true] at htext
        simp only [htext, Bool.false_eq_true, if_false]
        rintro ⟨_, h2⟩
        simp [missingTextResp, jget] at h2

theorem jsHexlify_length (bytes : List ℕ) :
    (jsHexlify bytes).length = 2 + 2 * bytes.length := by
  have h2 : ∀ l : List ℕ, (l.flatMap byteHexChars).length = 2 * l.length := by
    intro l
    induction l with
    | nil => rfl
    | cons b bs ih =>
      rw [List.flatMap_cons, List.length_append, ih]
      simp [byteHexChars]
      omega
  show ("0x" ++ String.mk (bytes.flatMap byteHexChars)).length = 2 + 2 * bytes.length
  rw [String.length_append]
  have hmk : (String.mk (bytes.flatMap byteHexChars)).length
      = (bytes.flatMap byteHexChars).length := rfl
  rw [hmk, h2 bytes]
  rfl

/-! ### The claims -/

/-- C1: the claim states that `validatePayment` returns true only when the
facilitator itself confirmed validity and that format validation never runs
as a consequence of a facilitator communication error or of a 404/501
response. The code does the opposite: a thrown facilitator communication
error, a 404 response and a 501 response each route into
`validatePaymentFallback`, the format-only validator, which accepts any
well-formed `0x`-hex hash — here shown both in general and at the concrete
66-character hash `cTxHash`, accepted with no facilitator confirmation. -/
theorem validatePayment_exception_accepts_format_only :
    (∀ transactionHash expectedRecipient expectedAmount facilitatorUrl : String,
        validatePayment transactionHash expectedRecipient expectedAmount
            facilitatorUrl .throws = validatePaymentFallback transactionHash
        ∧ validatePayment transactionHash expectedRecipient expectedAmount
            facilitatorUrl (.httpErr 404) = validatePaymentFallback transactionHash
        ∧ validatePayment transactionHash expectedRecipient expectedAmount
            facilitatorUrl (.httpErr 501) = validatePaymentFallback transactionHash)
    ∧ validatePayment cTxHash "0xrcpt" "100000" "http://fac" .throws = true
    ∧ validatePayment cTxHash "0xrcpt" "100000" "http://fac" (.httpErr 404) = true
    ∧ validatePayment cTxHash "0xrcpt" "100000" "http://fac" (.httpErr 501) = true :=
  ⟨fun _ _ _ _ => ⟨rfl, rfl, rfl⟩, rfl, rfl, rfl⟩

/-- C2: one-shot nonce use. Over any request sequence handled against the
shared replay store, at most one request carrying an authorization with
string nonce `n` ever invokes the protected resource, and once one has, every
later request with the same nonce is answered 400 without a facilitator
call. -/
theorem gate_nonce_one_shot (env : GateEnv) (store0 : List (Option Json))
    (reqs : List GateRequest) (n : String) :
    ((runSeq env store0 reqs).filter
        (fun p => keyIsStr p.1 n && p.2.resourceInvoked)).length ≤ 1
    ∧ ∀ (i j : ℕ) (ri rj : GateRequest) (oi oj : StepOut),
        i < j →
        (runSeq env store0 reqs)[i]? = some (ri, oi) →
        keyIsStr ri n = true → oi.resourceInvoked = true →
        (runSeq env store0 reqs)[j]? = some (rj, oj) →
        keyIsStr rj n = true →
        oj.resp.status = 400 ∧ oj.facCalled = false
          ∧ oj.resourceInvoked = false :=
  ⟨runSeq_count_le_one env n reqs store0,
   fun i j ri rj oi oj hij hgi hki hii hgj hkj =>
     runSeq_once_then_reject env n reqs store0 i j ri rj oi oj hij hgi hki hii hgj hkj⟩

set_option maxRecDepth 200000 in
/-- Witness for C2: a concrete run of the same successful request twice; the
success count is at most one and the second occurrence is answered 400 with
no facilitator call. -/
theorem gate_nonce_one_shot_witness :
    ((runSeq cEnv [] [okReq, okReq]).filter
        (fun p => keyIsStr p.1 "0xn1" && p.2.resourceInvoked)).length ≤ 1
    ∧ ((runSeq cEnv [] [okReq, okReq])[1]?.map
        (fun p => (p.2.resp.status, p.2.facCalled, p.2.resourceInvoked))
        = some (400, false, false)) := by
  have h := gate_nonce_one_shot cEnv [] [okReq, okReq] "0xn1"
  refine ⟨h.1, ?_⟩
  have h2 := h.2 0 1 okReq okReq (gateStep cEnv [] okReq)
    (gateStep cEnv (gateStep cEnv [] okReq).store okReq)
    (by omega) rfl rfl rfl rfl rfl
  rw [show (runSeq cEnv [] [okReq, okReq])[1]?
        = some (okReq, gateStep cEnv (gateStep cEnv [] okReq).store okReq) from rfl]
  show some ((gateStep cEnv (gateStep cEnv [] okReq).store okReq).resp.status,
      (gateStep cEnv (gateStep cEnv [] okReq).store okReq).facCalled,
      (gateStep cEnv (gateStep cEnv [] okReq).store okReq).resourceInvoked)
    = some (400, false, false)
  rw [h2.1, h2.2.1, h2.2.2]

/-- C3: replay rollback. When the facilitator call fails — it throws, returns
non-2xx, or returns 2xx without a truthy `transactionHash` (`facSettled =
false`) — the nonce of the submitted authorization is not marked consumed:
the store is unchanged, the resource is not invoked, the response is 402 or
502, and a later retry with the same signed authorization (same parsed
header `j`) against the resulting store can succeed. -/
theorem replay_rollback_on_facilitator_failure (env : GateEnv)
    (store : List (Option Json)) (r : GateRequest) (j : Json)
    (hp : reqParsed r = some j) (hst : structOk j = true)
    (hany : store.any (opEq (authNonce j)) = false)
    (hfail : facSettled r.facResult = false) :
    (gateStep env store r).store = store
    ∧ (gateStep env store r).resourceInvoked = false
    ∧ ((gateStep env store r).resp.status = 402
        ∨ (gateStep env store r).resp.status = 502)
    ∧ ∀ r2 : GateRequest, reqParsed r2 = some j →
        facSettled r2.facResult = true →
        jsTruthy (jget (some r2.body) "text") = true →
        (gateStep env (gateStep env store r).store r2).resourceInvoked = true := by
  obtain ⟨h1, h2, h3⟩ := gateStep_facFail env store r j hp hst hany hfail
  refine ⟨h1, h2, h3, ?_⟩
  intro r2 hp2 hset2 htext2
  rw [h1]
  exact gateStep_settle_invokes env store r2 j hp2 hst hany hset2 htext2

set_option maxRecDepth 200000 in
/-- Witness for C3: a request whose facilitator call throws leaves the store
empty, and the retry with the same authorization succeeds. -/
theorem replay_rollback_on_facilitator_failure_witness :
    (gateStep cEnv [] facDownReq).store = []
    ∧ (gateStep cEnv [] facDownReq).resp.status = 502
    ∧ (gateStep cEnv (gateStep cEnv [] facDownReq).store okReq).resourceInvoked
        = true := by
  have h := replay_rollback_on_facilitator_failure cEnv [] facDownReq cAuthJson
    rfl rfl rfl rfl
  exact ⟨h.1, rfl, h.2.2.2 okReq rfl rfl rfl⟩

set_option maxRecDepth 200000 in
/-- Counterexample for C4: the claim says the gate tries base64 first, falls
back to raw JSON, and fails `invalid-format` only when both decodings fail.
Here the X-PAYMENT header is exactly base64(JSON) of a SignedAuthorization —
base64-decoding it yields `cHeader`, which parses to `cAuthJson` — yet the
gate answers 400 invalid-format: it never attempts base64. -/
theorem base64_header_rejected_counterexample :
    gateStep cEnv [] b64Req
        = ⟨invalidFormatResp, [], false, false⟩
    ∧ base64decStr cB64Header = some cHeader
    ∧ jsonParse cHeader = some cAuthJson :=
  ⟨rfl, rfl, rfl⟩

/-- C4 (amended): the gate accepts the X-PAYMENT header only as raw JSON; it
attempts no base64 decoding, and it answers 400 `invalid-format` exactly when
`JSON.parse` of the header fails. -/
theorem invalid_format_iff_json_parse_fails (env : GateEnv)
    (store : List (Option Json)) (r : GateRequest) (hs : String)
    (hh : r.paymentHeader = some hs) (hne : hs ≠ "") :
    ((gateStep env store r).resp.status = 400
      ∧ jget (some (gateStep env store r).resp.body) "error"
          = some (.str "Invalid payment format"))
      ↔ jsonParse hs = none := by
  have he2 : (hs == "") = false := by simp [hne]
  rcases hj : jsonParse hs with _ | j
  · have hred : gateStep env store r = ⟨invalidFormatResp, store, false, false⟩ := by
      simp only [gateStep, hh, he2, Bool.false_eq_true, if_false, hj]
    rw [hred]
    constructor
    · intro _; rfl
    · intro _
      constructor
      · rfl
      · rfl
  · have hp : reqParsed r = some j := by
      simp only [reqParsed, hh, he2, Bool.false_eq_true, if_false, hj]
    rw [gateStep_of_parsed env store r j hp]
    constructor
    · intro hc
      exact absurd hc (gateParsed_not_invalid_format env store r j)
    · intro hc
      cases hc

set_option maxRecDepth 200000 in
/-- Witness for C4 (amended): at the base64 header the parse fails and the
gate answers invalid-format; at the raw JSON header it does not. -/
theorem invalid_format_iff_json_parse_fails_witness :
    ((gateStep cEnv [] b64Req).resp.status = 400
      ∧ jget (some (gateStep cEnv [] b64Req).resp.body) "error"
          = some (.str "Invalid payment format"))
    ∧ jsonParse cB64Header = none := by
  have h := invalid_format_iff_json_parse_fails cEnv [] b64Req cB64Header rfl
    (by decide)
  exact ⟨h.mpr rfl, rfl⟩

set_option maxRecDepth 200000 in
/-- Counterexample for C5: the claim says a request whose authorization has
`validBefore ≤ now` is rejected 400 `expired` without any external call.
Here is a request whose authorization carries `validBefore = 1` (unix second
1, long past for every clock the server can hold), yet the gate calls the
facilitator and answers 200: the code contains no expiry check at all. -/
theorem expired_request_not_rejected_counterexample :
    reqParsed expiredReq = some cExpiredAuthJson
    ∧ jget (jget (jget (some cExpiredAuthJson) "payload") "authorization")
        "validBefore" = some (.str "1")
    ∧ (gateStep cEnv [] expiredReq).facCalled = true
    ∧ (gateStep cEnv [] expiredReq).resp.status = 200 :=
  ⟨rfl, rfl, rfl, rfl⟩

/-- C5 (amended): the gate performs no expiry check. Every request whose
header parses and passes the structural check, with a fresh nonce, is
forwarded to the facilitator — the hypotheses place no condition whatsoever
on `validAfter`/`validBefore`, so expired authorizations are submitted like
any other; rejection of expired transfers is left to the facilitator. -/
theorem no_expiry_check_forwards_to_facilitator (env : GateEnv)
    (store : List (Option Json)) (r : GateRequest) (j : Json)
    (hp : reqParsed r = some j) (hst : structOk j = true)
    (hany : store.any (opEq (authNonce j)) = false) :
    (gateStep env store r).facCalled = true :=
  gateStep_fresh_callsFac env store r j hp hst hany

set_option maxRecDepth 200000 in
/-- Witness for C5 (amended): the expired request is forwarded. -/
theorem no_expiry_check_forwards_to_facilitator_witness :
    (gateStep cEnv [] expiredReq).facCalled = true :=
  no_expiry_check_forwards_to_facilitator cEnv [] expiredReq cExpiredAuthJson
    rfl rfl rfl

set_option maxRecDepth 200000 in
/-- Counterexample for C6: the claim says the 402 challenge body is
`{ x402Version: 1, methods: [...] }`; the body the gate actually emits has no
`x402Version` key at all. -/
theorem challenge_missing_x402Version_counterexample :
    (gateStep cEnv [] noHdrReq).resp.status = 402
    ∧ jget (some (gateStep cEnv [] noHdrReq).resp.body) "x402Version" = none :=
  ⟨rfl, rfl⟩

/-- C6 (amended): a request without an X-PAYMENT header is answered 402 with
JSON body `{ methods: [configured method] }` — with no `x402Version` field —
and with no side effects: the replay store is unchanged, the facilitator is
not contacted and the resource is not invoked. -/
theorem no_header_emits_challenge (env : GateEnv) (store : List (Option Json))
    (r : GateRequest) (h : r.paymentHeader = none) :
    gateStep env store r
        = ⟨⟨402, challengeBody env⟩, store, false, false⟩
    ∧ jget (some (challengeBody env)) "x402Version" = none := by
  constructor
  · simp only [gateStep, h]
    rfl
  · rfl

/-- Witness for C6 (amended). -/
theorem no_header_emits_challenge_witness :
    gateStep cEnv [] noHdrReq
        = ⟨⟨402, challengeBody cEnv⟩, [], false, false⟩
    ∧ jget (some (challengeBody cEnv)) "x402Version" = none :=
  no_header_emits_challenge cEnv [] noHdrReq rfl

/-- C9: if the facilitator settles but the request body lacks `text`, the
gate answers 400 without invoking the resource and without rolling back the
replay entry — the nonce stays consumed — so a resend with the same nonce and
a corrected body is rejected 400 before any external call: the settled
payment buys no resource invocation. -/
theorem settled_payment_buys_no_invocation (env : GateEnv)
    (store : List (Option Json)) (r : GateRequest) (j : Json) (ns : String)
    (hp : reqParsed r = some j) (hst : structOk j = true)
    (hn : authNonce j = some (.str ns))
    (hany : store.any (opEq (authNonce j)) = false)
    (hset : facSettled r.facResult = true)
    (htext : jsTruthy (jget (some r.body) "text") = false) :
    (gateStep env store r).resp.status = 400
    ∧ (gateStep env store r).resourceInvoked = false
    ∧ (gateStep env store r).store = store ++ [some (.str ns)]
    ∧ ∀ r2 : GateRequest, keyIsStr r2 ns = true →
        (gateStep env (gateStep env store r).store r2).resp.status = 400
        ∧ (gateStep env (gateStep env store r).store r2).facCalled = false := by
  obtain ⟨h1, h2, h3⟩ := gateStep_settle_noText env store r j hp hst hany hset htext
  rw [hn] at h3
  refine ⟨h1, h2, h3, ?_⟩
  intro r2 hk2
  have hm : some (Json.str ns) ∈ (gateStep env store r).store := by
    rw [h3]
    exact List.mem_append_right store (by simp)
  obtain ⟨g1, g2, _, _⟩ := gateStep_member env (gateStep env store r).store r2 ns hk2 hm
  exact ⟨g1, g2⟩

set_option maxRecDepth 200000 in
/-- Witness for C9: the text-less request consumes nonce `0xn1`, and the
corrected resend with the same authorization is rejected without a
facilitator call. -/
theorem settled_payment_buys_no_invocation_witness :
    (gateStep cEnv [] noTextReq).resp.status = 400
    ∧ (gateStep cEnv [] noTextReq).resourceInvoked = false
    ∧ (gateStep cEnv [] noTextReq).store = [] ++ [some (.str "0xn1")]
    ∧ (gateStep cEnv (gateStep cEnv [] noTextReq).store okReq).facCalled = false := by
  have h := settled_payment_buys_no_invocation cEnv [] noTextReq cAuthJson "0xn1"
    rfl rfl rfl rfl rfl rfl
  exact ⟨h.1, h.2.1, h.2.2.1, (h.2.2.2 okReq rfl).2⟩

/-- C7: both signers set `validAfter = floor(now_ms / 1000)`,
`validBefore = validAfter + timeout/1000` when the method carries a timeout
(which the PaymentMethod data-model invariant bounds into [1s, 1h], hence
nonzero) and `validAfter + 300` otherwise, and sign a
`TransferWithAuthorization` message with `from` the wallet address, `to` the
method recipient, `value` the method's `maximumAmount`, and nonce the hex of
the 32 freshly drawn random bytes (66 characters). -/
theorem signers_set_window_and_message (walletAddress : String)
    (m6 : X402PaymentMethod) (m9 : NormalizedMethod) (nowMs : ℕ)
    (randBytes : List ℕ)
    (sign6 sign9 : Eip712Domain → TransferWithAuthorizationMsg → String)
    (ht6 : ∀ t, m6.timeout = some t → 1000 ≤ t)
    (ht9 : ∀ t, m9.timeout = some t → 1000 ≤ t)
    (hlen : randBytes.length = 32) :
    ((clientCreateSignedAuthorization walletAddress m6 nowMs randBytes sign6).message
        = ⟨walletAddress, m6.recipient, m6.maximumAmount, ((nowMs / 1000 : ℕ) : ℚ),
           (match m6.timeout with
            | some t => ((nowMs / 1000 : ℕ) : ℚ) + t / 1000
            | none => ((nowMs / 1000 : ℕ) : ℚ) + 300),
           jsHexlify randBytes⟩)
    ∧ ((serverCreatePaymentAuthorization walletAddress m9 nowMs randBytes sign9).message
        = ⟨walletAddress, m9.recipient, m9.maximumAmount, ((nowMs / 1000 : ℕ) : ℚ),
           (match m9.timeout with
            | some t => ((nowMs / 1000 : ℕ) : ℚ) + t / 1000
            | none => ((nowMs / 1000 : ℕ) : ℚ) + 300),
           jsHexlify randBytes⟩)
    ∧ (jsHexlify randBytes).length = 66 := by
  refine ⟨?_, ?_, ?_⟩
  · rcases hto : m6.timeout with _ | t
    · simp [clientCreateSignedAuthorization, validBeforeOf, hto]
    · have hne : (t == 0) = false := by
        rw [beq_eq_false_iff_ne]
        intro h0
        have hb := ht6 t hto
        rw [h0] at hb
        norm_num at hb
      simp [clientCreateSignedAuthorization, validBeforeOf, hto, hne]
  · rcases hto : m9.timeout with _ | t
    · simp [serverCreatePaymentAuthorization, validBeforeOf, hto]
    · have hne : (t == 0) = false := by
        rw [beq_eq_false_iff_ne]
        intro h0
        have hb := ht9 t hto
        rw [h0] at hb
        norm_num at hb
      simp [serverCreatePaymentAuthorization, validBeforeOf, hto, hne]
  · rw [jsHexlify_length, hlen]

/-- Witness for C7: the concrete method with a 300000 ms timeout yields
`validBefore = validAfter + 300000/1000` and the hexlified 32-byte nonce. -/
theorem signers_set_window_and_message_witness :
    ((clientCreateSignedAuthorization "0xme" cM6 1700000000123 cBytes cSignFn).message
        = ⟨"0xme", cM6.recipient, cM6.maximumAmount, ((1700000000123 / 1000 : ℕ) : ℚ),
           ((1700000000123 / 1000 : ℕ) : ℚ) + 300000 / 1000, jsHexlify cBytes⟩)
    ∧ (jsHexlify cBytes).length = 66 := by
  have hw : ∀ t : ℚ, some (300000 : ℚ) = some t → 1000 ≤ t := by
    intro t ht
    rw [Option.some.injEq] at ht
    rw [← ht]
    norm_num
  have h := signers_set_window_and_message "0xme" cM6 cM9 1700000000123 cBytes
    cSignFn cSignFn hw hw (by simp [cBytes])
  exact ⟨h.1, h.2.2⟩

/-- C10: the two client embeddings are not wire-equivalent. For the same
signed-authorization payload, `X402Client.fetch` attaches the raw JSON
serialization as the X-PAYMENT header while `X402ServerClient` attaches its
base64 encoding, and the two header strings always differ (a JSON object
serialization starts with a brace, which the base64 alphabet excludes). -/
theorem client_server_headers_differ (scheme network signature fromAddr : String)
    (toAddr value vaStr vbStr nonce : String) :
    clientPaymentHeaderValue (signedAuthPayloadJson scheme network signature
        fromAddr toAddr value vaStr vbStr nonce)
      ≠ serverPaymentHeaderValue (signedAuthPayloadJson scheme network signature
        fromAddr toAddr value vaStr vbStr nonce) :=
  serJson_obj_ne_base64 _

/-- Witness for C10 at a concrete payload. -/
theorem client_server_headers_differ_witness :
    clientPaymentHeaderValue (signedAuthPayloadJson "exact" "base-sepolia" "0xsig"
        "0xme" "0xrcpt" "100000" "1700000000" "1700000300" "0xn1")
      ≠ serverPaymentHeaderValue (signedAuthPayloadJson "exact" "base-sepolia" "0xsig"
        "0xme" "0xrcpt" "100000" "1700000000" "1700000300" "0xn1") :=
  client_server_headers_differ "exact" "base-sepolia" "0xsig" "0xme" "0xrcpt"
    "100000" "1700000000" "1700000300" "0xn1"

set_option maxRecDepth 200000 in
/-- Witness for C8: a receipt holding one Transfer log from the asset
contract paying 100000 units to the expected recipient is accepted. -/
theorem chain_validator_accepts_iff_witness :
    parseBigInt "100000" = some 100000
    ∧ wfReceipt cReceipt = true
    ∧ validatePaymentOnChain cTxHash "http://rpc" cRecipient "100000" cToken
        (.ok (some cReceipt)) = true := by
  refine ⟨rfl, rfl, ?_⟩
  refine (chain_validator_accepts_iff cTxHash "http://rpc" cRecipient "100000"
    cToken (.ok (some cReceipt)) 100000 rfl ?_).mpr ?_
  · intro rec h
    rw [RpcReceipt.ok.injEq, Option.some.injEq] at h
    rw [← h]
    rfl
  · refine ⟨cReceipt, rfl, rfl, cTransferLog, by simp [cReceipt], rfl, rfl, ?_⟩
    show 100000 ≤ logValue cTransferLog
    rw [show logValue cTransferLog = 100000 from rfl]
